import Mathlib

/-!
Shallow embedding of the meetingbot session lifecycle engine and proofs
about it.

Sources embedded here:
- bots/meet/src/bot.ts (MeetsBot): speaker-timeframe derivation,
  participant tracker callbacks, the termination polling loop, the
  ffmpeg capture pipeline, leaveMeeting / endLife, joinMeeting.
- bots/teams/src/bot.ts (TeamsBot): updateParticipants, endLife,
  joinMeeting.
- the Zoom bot variant (ZoomBot): startRecording.

Times are modelled as Int milliseconds (JS Date.now() arithmetic on
numbers, relative timestamps may in principle be compared and
subtracted freely).  The JS value Infinity used for the field
timeAloneStarted is modelled as Option Int with none for Infinity.
-/

namespace Meetingbot

/-- Record produced by getSpeakerTimeframes, from SpeakerTimeframe in the
shared types: speaker name plus start and end instants in milliseconds
relative to recording start.  The source field name end is a Lean keyword
and is rendered tfEnd. -/
structure SpeakerTimeframe where
  speakerName : String
  start : Int
  tfEnd : Int
deriving Repr, DecidableEq

/-- Stored activity timestamps of one speaker, one entry of the
registeredActivityTimestamps map (meet bot.ts lines 135-137, 681-685):
the sequence is created with a first timestamp and appended to
afterwards, hence head plus tail and never empty. -/
structure ActivityEntry where
  speakerName : String
  first : Int
  rest : List Int
deriving Repr, DecidableEq

/-- Inner loop of getSpeakerTimeframes (meet bot.ts lines 219-234) for one
speaker.  The accumulators start and e mirror the source variables start
and end: a timestamp closer than 3000 ms to the previous one extends the
current frame; otherwise the current frame is pushed only when longer
than 500 ms and a fresh frame begins at that timestamp.  After the loop
the pending frame is always pushed (source line 234). -/
def processSpeakerGo (speakerName : String) (start e : Int) :
    List Int → List SpeakerTimeframe
  | [] => [⟨speakerName, start, e⟩]
  | c :: ts =>
    if c - e < 3000 then
      processSpeakerGo speakerName start c ts
    else
      (if e - start > 500 then [⟨speakerName, start, e⟩] else []) ++
        processSpeakerGo speakerName c c ts

/-- Boolean rendering of the JS sort comparator at meet bot.ts line 236,
a.start - b.start || a.end - b.end: lexicographic order on the pair
(start, end). -/
def tfLe (a b : SpeakerTimeframe) : Bool :=
  decide (a.start < b.start) ||
    (decide (a.start = b.start) && decide (a.tfEnd ≤ b.tfEnd))

/-- getSpeakerTimeframes (meet bot.ts lines 207-239): fold every entry of
the activity map with the inner loop and sort all collected frames with
the comparator.  Object.entries iterates the map in insertion order,
modelled by the association list; the stable JS Array.sort is modelled by
the stable List.mergeSort. -/
def getSpeakerTimeframes (m : List ActivityEntry) : List SpeakerTimeframe :=
  (m.flatMap fun en =>
    processSpeakerGo en.speakerName en.first en.first en.rest).mergeSort tfLe

/-- Specification-side segmentation, following the words of the spec:
consecutive timestamps separated by less than 3000 ms belong to the same
segment, a gap of 3000 ms or more starts a new segment; a segment is
reported as the pair of its first and last timestamp. -/
def specSegments (t0 : Int) : List Int → List (Int × Int)
  | [] => [(t0, t0)]
  | t1 :: ts =>
    if t1 - t0 < 3000 then
      match specSegments t1 ts with
      | [] => []
      | (_, e) :: more => (t0, e) :: more
    else (t0, t0) :: specSegments t1 ts

/-- Specification-side emission rule, following the words of the spec: a
folded timeframe is emitted only if its duration exceeds 500 ms or it is
the last segment for that speaker. -/
def specEmit (speakerName : String) : List (Int × Int) → List SpeakerTimeframe
  | [] => []
  | [(s, e)] => [⟨speakerName, s, e⟩]
  | (s, e) :: seg :: more =>
    (if e - s > 500 then [⟨speakerName, s, e⟩] else []) ++
      specEmit speakerName (seg :: more)

/-- Specification-side speaker timeframes: emit the segments of every
speaker and sort by (start, end) ascending. -/
def specSpeakerTimeframes (m : List ActivityEntry) : List SpeakerTimeframe :=
  (m.flatMap fun en =>
    specEmit en.speakerName (specSegments en.first en.rest)).mergeSort tfLe

/-- Replace the first instant of the leading segment; used to relate the
loop accumulators to the specification segmentation. -/
def overrideStart (s : Int) : List (Int × Int) → List (Int × Int)
  | [] => []
  | (_, e) :: more => (s, e) :: more

lemma specSegments_head (t0 : Int) (ts : List Int) :
    ∃ e tl, specSegments t0 ts = (t0, e) :: tl := by
  induction ts generalizing t0 with
  | nil => exact ⟨t0, [], rfl⟩
  | cons t1 ts ih =>
    simp only [specSegments]
    by_cases h : t1 - t0 < 3000
    · rw [if_pos h]
      obtain ⟨e, tl, hs⟩ := ih t1
      rw [hs]
      exact ⟨e, tl, rfl⟩
    · rw [if_neg h]
      exact ⟨t0, specSegments t1 ts, rfl⟩

lemma processSpeakerGo_eq_spec (speakerName : String) (ts : List Int) :
    ∀ start e, processSpeakerGo speakerName start e ts =
      specEmit speakerName (overrideStart start (specSegments e ts)) := by
  induction ts with
  | nil =>
    intro start e
    simp [processSpeakerGo, specSegments, overrideStart, specEmit]
  | cons c ts ih =>
    intro start e
    simp only [processSpeakerGo, specSegments]
    obtain ⟨e2, tl, hs⟩ := specSegments_head c ts
    by_cases h : c - e < 3000
    · rw [if_pos h, if_pos h, ih start c, hs]
      simp [overrideStart]
    · rw [if_neg h, if_neg h, ih c c, hs]
      simp [overrideStart, specEmit]

/-- The loop applied to a whole stored sequence agrees with the
specification-side segmentation and emission. -/
lemma processSpeaker_eq_spec (speakerName : String) (first : Int)
    (rest : List Int) :
    processSpeakerGo speakerName first first rest =
      specEmit speakerName (specSegments first rest) := by
  rw [processSpeakerGo_eq_spec]
  obtain ⟨e, tl, hs⟩ := specSegments_head first rest
  rw [hs]
  simp [overrideStart]

lemma tfLe_trans (a b c : SpeakerTimeframe) (hab : tfLe a b = true)
    (hbc : tfLe b c = true) : tfLe a c = true := by
  simp only [tfLe, Bool.or_eq_true, Bool.and_eq_true, decide_eq_true_eq]
    at hab hbc ⊢
  rcases hab with h | ⟨h1, h2⟩ <;> rcases hbc with g | ⟨g1, g2⟩ <;> omega

lemma tfLe_total (a b : SpeakerTimeframe) : (tfLe a b || tfLe b a) = true := by
  simp only [tfLe, Bool.or_eq_true, Bool.and_eq_true, decide_eq_true_eq]
  omega

lemma processSpeakerGo_ne_nil (speakerName : String) :
    ∀ (ts : List Int) (start e : Int),
      processSpeakerGo speakerName start e ts ≠ [] := by
  intro ts
  induction ts with
  | nil => intro start e; simp [processSpeakerGo]
  | cons c ts ih =>
    intro start e
    simp only [processSpeakerGo]
    by_cases h : c - e < 3000
    · rw [if_pos h]; exact ih start c
    · rw [if_neg h]
      intro hcontra
      exact ih c c (List.append_eq_nil.mp hcontra).2

/-- Every frame the loop pushes before its last one passed the duration
test of meet bot.ts line 227, so its duration strictly exceeds 500 ms. -/
lemma processSpeakerGo_dropLast_gt500 (speakerName : String) :
    ∀ (ts : List Int) (start e : Int),
      ∀ f ∈ (processSpeakerGo speakerName start e ts).dropLast,
        f.tfEnd - f.start > 500 := by
  intro ts
  induction ts with
  | nil => intro start e; simp [processSpeakerGo]
  | cons c ts ih =>
    intro start e
    simp only [processSpeakerGo]
    by_cases h : c - e < 3000
    · rw [if_pos h]; exact ih start c
    · rw [if_neg h]
      cases hg : processSpeakerGo speakerName c c ts with
      | nil => exact absurd hg (processSpeakerGo_ne_nil speakerName ts c c)
      | cons y ys =>
        rw [List.dropLast_append_cons]
        intro f hf
        rcases List.mem_append.mp hf with hl | hr
        · by_cases hd : e - start > 500
          · rw [if_pos hd] at hl
            rcases List.mem_singleton.mp hl with rfl
            simpa using hd
          · rw [if_neg hd] at hl
            exact absurd hl (List.not_mem_nil f)
        · have := ih c c f
          rw [hg] at this
          exact this hr

/-- C2: for every stored activity-timestamp map, getSpeakerTimeframes
coincides with the specification-side derivation (consecutive timestamps
less than 3000 ms apart are folded into one timeframe, a gap of 3000 ms
or more starts a new one, a non-final frame is emitted when longer than
500 ms and the final frame always), and its output is sorted ascending
by (start, end). -/
theorem speakerTimeframes_merge_split_sorted (m : List ActivityEntry) :
    getSpeakerTimeframes m = specSpeakerTimeframes m ∧
    List.Pairwise (fun a b => tfLe a b = true) (getSpeakerTimeframes m) := by
  constructor
  · have h : (fun en : ActivityEntry =>
        processSpeakerGo en.speakerName en.first en.first en.rest) =
        (fun en : ActivityEntry =>
          specEmit en.speakerName (specSegments en.first en.rest)) :=
      funext fun en => processSpeaker_eq_spec en.speakerName en.first en.rest
    rw [getSpeakerTimeframes, specSpeakerTimeframes, h]
  · rw [getSpeakerTimeframes]
    exact List.sorted_mergeSort tfLe_trans tfLe_total _

/-- C9: the sorted output is a permutation of the per-speaker frame lists,
and within each speaker's frame list every frame except the final one has
duration strictly greater than 500 ms; hence a frame of duration at most
500 ms can only be the final (last-recorded) segment of its speaker. -/
theorem short_frames_only_final (m : List ActivityEntry) :
    (getSpeakerTimeframes m).Perm
      (m.flatMap fun en =>
        processSpeakerGo en.speakerName en.first en.first en.rest) ∧
    ∀ en ∈ m,
      ∀ f ∈ (processSpeakerGo en.speakerName en.first en.first
              en.rest).dropLast,
        f.tfEnd - f.start > 500 := by
  constructor
  · rw [getSpeakerTimeframes]
    exact List.mergeSort_perm _ _
  · intro en _ f hf
    exact processSpeakerGo_dropLast_gt500 en.speakerName en.rest en.first
      en.first f hf

/-- Witness for C9 at a concrete input: the speaker A spoke at 0 ms,
600 ms and 5000 ms, producing a non-final frame from 0 to 600 whose
duration 600 exceeds 500. -/
theorem short_frames_only_final_witness :
    (⟨"A", 0, 600⟩ : SpeakerTimeframe) ∈
      (processSpeakerGo "A" 0 0 [600, 5000]).dropLast ∧
    (600 : Int) - 0 > 500 := by
  refine ⟨by decide, ?_⟩
  have h := (short_frames_only_final [⟨"A", 0, [600, 5000]⟩]).2
    ⟨"A", 0, [600, 5000]⟩ (by decide) ⟨"A", 0, 600⟩ (by decide)
  exact h

/-- Participant record surfaced by the page observers (meet bot.ts
lines 39-43, the observer handle is irrelevant to the roster state). -/
structure Participant where
  id : String
  name : String
deriving Repr, DecidableEq

/-- Roster state of the meet tracker: the participants array and the
timeAloneStarted field (meet bot.ts lines 133, 140); the JS value
Infinity is modelled as none. -/
structure TrackerState where
  participants : List Participant
  timeAloneStarted : Option Int
deriving Repr, DecidableEq

/-- Exposed onParticipantJoin callback (meet bot.ts lines 652-658): pushes
the participant onto the roster array; it performs no duplicate check and
does not touch timeAloneStarted. -/
def onParticipantJoin (p : Participant) (s : TrackerState) : TrackerState :=
  { s with participants := s.participants ++ [p] }

/-- Exposed onParticipantLeave callback (meet bot.ts lines 660-670):
filters the roster by id, then unconditionally recomputes
timeAloneStarted: the current instant when the resulting roster has
exactly one member, Infinity (none) otherwise. -/
def onParticipantLeave (p : Participant) (now : Int) (s : TrackerState) :
    TrackerState :=
  let ps := s.participants.filter fun q => q.id != p.id
  { participants := ps
    timeAloneStarted := if ps.length = 1 then some now else none }

/-- Roster state of the teams tracker (teams bot.ts lines 22, 29). -/
structure TeamsTrackerState where
  participants : List String
  timeAloneStarted : Option Int
deriving Repr, DecidableEq

/-- One tick of updateParticipants (teams bot.ts lines 240-278): replace
the roster with the freshly scraped list; with more than one member clear
timeAloneStarted, otherwise set it to the current instant only when it
was unset. -/
def updateParticipants (newParticipants : List String) (now : Int)
    (t : TeamsTrackerState) : TeamsTrackerState :=
  if newParticipants.length > 1 then
    { participants := newParticipants, timeAloneStarted := none }
  else if t.timeAloneStarted = none then
    { participants := newParticipants, timeAloneStarted := some now }
  else
    { participants := newParticipants, timeAloneStarted := t.timeAloneStarted }

/-- Counterexample to C3: in the reachable state with roster [Alice] and
alone-start instant 5 (reached by a leave that left Alice alone), a join
of Bob moves the roster size from 1 to 2 yet leaves the alone-start
instant set, while the claim requires it to be cleared exactly on that
transition. -/
theorem alone_start_transition_claim_false :
    (TrackerState.participants ⟨[⟨"a", "Alice"⟩], some 5⟩).length = 1 ∧
    (onParticipantJoin ⟨"b", "Bob"⟩
        ⟨[⟨"a", "Alice"⟩], some 5⟩).participants.length = 2 ∧
    (onParticipantJoin ⟨"b", "Bob"⟩
        ⟨[⟨"a", "Alice"⟩], some 5⟩).timeAloneStarted = some 5 := by
  decide

/-- C3 as amended: the alone-start instant is never modified by the meet
join callback; a meet leave callback sets it to the current instant
exactly when the post-leave roster size is 1 and clears it exactly
otherwise (even when the removed id was absent); a teams roster poll
clears it exactly when the new roster size exceeds 1 and otherwise keeps
it, initialising it to the current instant only when it was unset. -/
theorem alone_start_update_rule (s : TrackerState) (p q : Participant)
    (now : Int) (t : TeamsTrackerState) (ps : List String) :
    ((onParticipantJoin q s).timeAloneStarted = s.timeAloneStarted ∧
      (onParticipantJoin q s).participants.length =
        s.participants.length + 1) ∧
    ((onParticipantLeave p now s).timeAloneStarted = some now ↔
      (onParticipantLeave p now s).participants.length = 1) ∧
    ((onParticipantLeave p now s).timeAloneStarted = none ↔
      (onParticipantLeave p now s).participants.length ≠ 1) ∧
    ((updateParticipants ps now t).timeAloneStarted = none ↔
      ps.length > 1) ∧
    (ps.length ≤ 1 →
      (updateParticipants ps now t).timeAloneStarted =
        some (t.timeAloneStarted.getD now)) := by
  refine ⟨⟨rfl, by simp [onParticipantJoin]⟩, ?_, ?_, ?_, ?_⟩
  · simp only [onParticipantLeave]
    by_cases h : (s.participants.filter fun q => q.id != p.id).length = 1 <;>
      simp [h]
  · simp only [onParticipantLeave]
    by_cases h : (s.participants.filter fun q => q.id != p.id).length = 1 <;>
      simp [h]
  · simp only [updateParticipants]
    by_cases h : ps.length > 1
    · simp [h]
    · rw [if_neg h]
      cases ht : t.timeAloneStarted <;> simp [ht, h]
  · intro hle
    have h : ¬ps.length > 1 := by omega
    simp only [updateParticipants]
    rw [if_neg h]
    cases ht : t.timeAloneStarted <;> simp [ht]

/-- Witness for the amended C3 at concrete inputs: a leave that empties
the roster down to one member sets the instant, and a teams poll with a
one-member roster and unset instant initialises it. -/
theorem alone_start_update_rule_witness :
    (onParticipantLeave ⟨"b", "Bob"⟩ 7
        ⟨[⟨"a", "Alice"⟩, ⟨"b", "Bob"⟩], none⟩).timeAloneStarted = some 7 ∧
    (updateParticipants ["bot"] 9 ⟨[], none⟩).timeAloneStarted = some 9 := by
  constructor
  · exact (alone_start_update_rule ⟨[⟨"a", "Alice"⟩, ⟨"b", "Bob"⟩], none⟩
      ⟨"b", "Bob"⟩ ⟨"b", "Bob"⟩ 7 ⟨[], none⟩ ["bot"]).2.1.mpr (by decide)
  · exact (alone_start_update_rule ⟨[], none⟩ ⟨"b", "Bob"⟩ ⟨"b", "Bob"⟩ 9
      ⟨[], none⟩ ["bot"]).2.2.2.2 (by decide)

/-- Counterexample to C4: invoking the exposed join callback twice with
the same participant id grows the roster to two entries, where the claim
requires the size to match a single join. -/
theorem duplicate_join_claim_false :
    (onParticipantJoin ⟨"a", "Alice"⟩ (onParticipantJoin ⟨"a", "Alice"⟩
        ⟨[], none⟩)).participants.length ≠
      (onParticipantJoin ⟨"a", "Alice"⟩
        (⟨[], none⟩ : TrackerState)).participants.length := by
  decide

/-- C4 as amended: a second join with the same participant id appends a
duplicate roster entry, increasing the size by one (deduplication lives
in the page-side observers, not in the callback); a leave whose id is
absent from the roster leaves the roster unchanged and is not an error,
though it still recomputes the timeAloneStarted field. -/
theorem join_leave_roster_rule (s : TrackerState) (p : Participant)
    (now : Int) :
    (onParticipantJoin p (onParticipantJoin p s)).participants.length =
      (onParticipantJoin p s).participants.length + 1 ∧
    ((∀ q ∈ s.participants, q.id ≠ p.id) →
      (onParticipantLeave p now s).participants = s.participants) := by
  constructor
  · simp [onParticipantJoin]
  · intro habs
    simp only [onParticipantLeave]
    exact List.filter_eq_self.mpr fun q hq => by
      simpa using habs q hq

/-- Witness for the amended C4: removing the absent id x from the roster
[Alice] leaves the roster unchanged. -/
theorem join_leave_roster_rule_witness :
    (onParticipantLeave ⟨"x", "Xavier"⟩ 3
        ⟨[⟨"a", "Alice"⟩], some 5⟩).participants = [⟨"a", "Alice"⟩] :=
  (join_leave_roster_rule ⟨[⟨"a", "Alice"⟩], some 5⟩ ⟨"x", "Xavier"⟩ 3).2
    (by decide)

/-- Side effects performed by the recording pipeline, the leave path and
cleanup. -/
inductive Action where
  | clickLeave
  | sigintEncoder
  | closeBrowser
  | spawnEncoder
  | createStream
  | createFile
  | closeFile
  | clearIntervals
  | destroyStream
deriving Repr, DecidableEq

/-- How a live ffmpeg process reacts once stopRecording sends SIGINT:
either its exit event fires with an exit code (null code rendered none),
or only its error event fires and it never exits. -/
inductive EncoderStopOutcome where
  | exits (code : Option Int)
  | errors
deriving Repr, DecidableEq

/-- Result of stopRecording: the numeric status the promise resolved
with, whether the call had to wait for an encoder event (false means the
no-process path resolved immediately), the actions taken, and the value
of the ffmpegProcess field afterwards. -/
structure StopResult where
  status : Nat
  waitedForEncoder : Bool
  actions : List Action
  ffmpegAfter : Option EncoderStopOutcome
deriving Repr, DecidableEq

/-- stopRecording (meet bot.ts lines 495-535) as a function of the
ffmpegProcess field and of the encoder reaction to SIGINT.  The promise
executor only ever resolves, never rejects: with no process it resolves
1 at once; otherwise it sends SIGINT and resolves 0 on an exit with code
0, and 1 on any other exit or on an error event.  The exit handler
registered by startRecording (lines 478-481) nulls the ffmpegProcess
field when the process exits; the error path leaves it assigned. -/
def stopRecordingFull (p : Option EncoderStopOutcome) : StopResult :=
  match p with
  | none => ⟨1, false, [], none⟩
  | some (.exits code) =>
    ⟨if code = some 0 then 0 else 1, true, [.sigintEncoder], none⟩
  | some .errors => ⟨1, true, [.sigintEncoder], some .errors⟩

/-- C6: stopRecording resolves with a numeric status on every path
(never rejects): immediately with status 1 and no waiting when no
encoder was ever started, with status 0 when the encoder exits cleanly
after the graceful interrupt, and with status 1 when it exits abnormally
or errors. -/
theorem stopRecording_always_resolves (p : Option EncoderStopOutcome) :
    ((stopRecordingFull p).status = 0 ∨ (stopRecordingFull p).status = 1) ∧
    stopRecordingFull none = ⟨1, false, [], none⟩ ∧
    (stopRecordingFull (some (.exits (some 0)))).status = 0 ∧
    (∀ code, code ≠ some 0 →
      (stopRecordingFull (some (.exits code))).status = 1) ∧
    (stopRecordingFull (some .errors)).status = 1 := by
  refine ⟨?_, rfl, rfl, ?_, rfl⟩
  · rcases p with _ | q
    · exact Or.inr rfl
    · rcases q with code | _
      · by_cases h : code = some 0 <;> simp [stopRecordingFull, h]
      · exact Or.inr rfl
  · intro code h
    simp [stopRecordingFull, h]

/-- Witness for C6: an encoder killed by a signal exits with a null code
and stopRecording still resolves with the failure status 1. -/
theorem stopRecording_always_resolves_witness :
    (stopRecordingFull (some (.exits none))).status = 1 :=
  (stopRecording_always_resolves (some (.exits none))).2.2.2.1 none
    (by decide)

/-- startRecording of the meet bot (meet bot.ts lines 446-484): the guard
at line 449 returns at once when an ffmpeg process already exists, so a
process is spawned only when the field is null.  The parameter spawned
names the behaviour of the fresh process. -/
def startRecording (p : Option EncoderStopOutcome)
    (spawned : EncoderStopOutcome) :
    Option EncoderStopOutcome × List Action :=
  match p with
  | some q => (some q, [])
  | none => (some spawned, [.spawnEncoder])

/-- Capture state of the Zoom bot: its stream and file fields (ZoomBot
lines 26-27), holding the handles of the current capture stream and
write stream. -/
structure ZoomRecState where
  stream : Option Nat
  file : Option Nat
deriving Repr, DecidableEq

/-- ZoomBot.startRecording (ZoomBot lines 209-220): with no guard against
an existing recording it always calls getStream, creating a new capture
stream, creates a new file write stream and pipes the one into the
other, overwriting both fields.  The parameters name the fresh
handles. -/
def zoomStartRecording (_s : ZoomRecState) (freshStream freshFile : Nat) :
    ZoomRecState × List Action :=
  (⟨some freshStream, some freshFile⟩, [.createStream, .createFile])

/-- Counterexample to C7: a second ZoomBot.startRecording call while a
recording is already running is not free of side effects - it creates a
second capture stream (and a second write stream), where the claim
allows nothing beyond a log. -/
theorem second_startRecording_claim_false :
    (zoomStartRecording (zoomStartRecording ⟨none, none⟩ 1 1).1 2 2).2 ≠
      ([] : List Action) ∧
    Action.createStream ∈
      (zoomStartRecording (zoomStartRecording ⟨none, none⟩ 1 1).1 2 2).2 := by
  decide

/-- C7 as amended: the meet bot startRecording is idempotent - a call
with an encoder already present performs no side effect beyond a log and
spawns nothing, and only a call with no encoder spawns one - while the
Zoom bot startRecording has no such guard and every call creates a new
capture stream and write stream. -/
theorem startRecording_idempotence_rule (q spawned : EncoderStopOutcome)
    (z : ZoomRecState) (a b : Nat) :
    startRecording (some q) spawned = (some q, []) ∧
    (startRecording none spawned).2 = [Action.spawnEncoder] ∧
    (zoomStartRecording z a b).2 = [Action.createStream, Action.createFile] :=
  ⟨rfl, rfl, rfl⟩

/-- Whether the browser behind the browser field is still open. -/
inductive BrowserState where
  | isOpen
  | isClosed
deriving Repr, DecidableEq

/-- Driver primitive browser.close(): closing an open browser closes it;
per the automation driver contract, close on an already closed browser
resolves as a no-op rather than rejecting. -/
def browserClose : BrowserState → BrowserState × List Action
  | .isOpen => (.isClosed, [.closeBrowser])
  | .isClosed => (.isClosed, [])

/-- Resource state of the meet bot relevant to cleanup: the ffmpegProcess
field and the browser field, where none models a field that launchBrowser
never assigned. -/
structure MeetResources where
  ffmpeg : Option EncoderStopOutcome
  browser : Option BrowserState
deriving Repr, DecidableEq

/-- endLife of the meet bot (meet bot.ts lines 933-946): awaits
stopRecording, then closes the browser only when the field was ever
assigned.  The field is not cleared, so a second call reaches
browserClose again, which is then a no-op on the closed browser. -/
def endLife (s : MeetResources) : MeetResources × List Action :=
  let stop := stopRecordingFull s.ffmpeg
  match s.browser with
  | none => (⟨stop.ffmpegAfter, none⟩, stop.actions)
  | some b =>
    let c := browserClose b
    (⟨stop.ffmpegAfter, some c.1⟩, stop.actions ++ c.2)

/-- Resource state of the teams bot relevant to cleanup (teams bot.ts
lines 23-31): the ended guard flag, whether the page field was assigned,
the file write stream, the capture stream (some true live, some false
destroyed) and the browser field. -/
structure TeamsResources where
  ended : Bool
  pageLaunched : Bool
  file : Option Unit
  stream : Option Bool
  browser : Option BrowserState
deriving Repr, DecidableEq

/-- stopRecording of the teams bot (teams bot.ts lines 214-220): destroy
the stream when the field is assigned; destroying an already destroyed
stream is a no-op. -/
def teamsStopRecording : Option Bool → Option Bool × List Action
  | none => (none, [])
  | some true => (some false, [.destroyStream])
  | some false => (some false, [])

/-- endLife of the teams bot (teams bot.ts lines 338-376): the ended flag
makes a second call return at once; otherwise it attempts the leave
click inside try/catch (the attempt happens only when the page field was
assigned, an unassigned page throws into the same catch), closes and
nulls the file if assigned, clears the two interval handles (always
assigned by the constructor), destroys the stream if assigned and closes
the browser if assigned. -/
def teamsEndLife (t : TeamsResources) : TeamsResources × List Action :=
  if t.ended then (t, [])
  else
    let a0 : List Action := if t.pageLaunched then [.clickLeave] else []
    let fa : Option Unit × List Action :=
      match t.file with
      | some _ => (none, [.closeFile])
      | none => (none, [])
    let sa := teamsStopRecording t.stream
    let ba : Option BrowserState × List Action :=
      match t.browser with
      | none => (none, [])
      | some b =>
        let c := browserClose b
        (some c.1, c.2)
    (⟨true, t.pageLaunched, fa.1, sa.1, ba.1⟩,
      a0 ++ fa.2 ++ [.clearIntervals] ++ sa.2 ++ ba.2)

/-- C8: cleanup never throws and is safe to run twice.  On the meet bot a
fully uninitialised state produces no action at all, and after a first
endLife whose encoder (if any) responded to SIGINT by exiting, a second
endLife performs no action whatsoever; on the teams bot the ended guard
makes a second endLife a strict no-op on every state. -/
theorem endLife_idempotent_and_safe (s : MeetResources)
    (t : TeamsResources) :
    (s.ffmpeg = none → s.browser = none → endLife s = (⟨none, none⟩, [])) ∧
    (s.ffmpeg ≠ some .errors → (endLife (endLife s).1).2 = []) ∧
    (teamsEndLife (teamsEndLife t).1).2 = [] ∧
    (teamsEndLife (teamsEndLife t).1).1 = (teamsEndLife t).1 := by
  refine ⟨?_, ?_, ?_, ?_⟩
  · intro hf hb
    simp [endLife, hf, hb, stopRecordingFull]
  · intro herr
    rcases s with ⟨f, b⟩
    rcases f with _ | q
    · rcases b with _ | br
      · simp [endLife, stopRecordingFull]
      · rcases br <;> simp [endLife, stopRecordingFull, browserClose]
    · rcases q with code | _
      · rcases b with _ | br
        · simp [endLife, stopRecordingFull]
        · rcases br <;> simp [endLife, stopRecordingFull, browserClose]
      · exact absurd rfl herr
  · rcases t with ⟨e, pg, f, st, br⟩
    rcases e <;> simp [teamsEndLife]
  · rcases t with ⟨e, pg, f, st, br⟩
    rcases e <;> simp [teamsEndLife]

/-- Witness for C8: a never-initialised meet bot cleans up with no
action, a meet bot with a live encoder that exits cleanly and an open
browser emits nothing on the second cleanup, and so does a fresh teams
bot with every resource live. -/
theorem endLife_idempotent_and_safe_witness :
    endLife ⟨none, none⟩ = (⟨none, none⟩, []) ∧
    (endLife (endLife ⟨some (.exits (some 0)), some .isOpen⟩).1).2 = [] ∧
    (teamsEndLife (teamsEndLife
      ⟨false, true, some (), some true, some .isOpen⟩).1).2 = [] := by
  refine ⟨?_, ?_, ?_⟩
  · exact (endLife_idempotent_and_safe ⟨none, none⟩
      ⟨false, true, some (), some true, some .isOpen⟩).1 rfl rfl
  · exact (endLife_idempotent_and_safe ⟨some (.exits (some 0)), some .isOpen⟩
      ⟨false, true, some (), some true, some .isOpen⟩).2.1 (by decide)
  · exact (endLife_idempotent_and_safe ⟨none, none⟩
      ⟨false, true, some (), some true, some .isOpen⟩).2.2.1

/-- leaveMeeting (meet bot.ts lines 954-968): tries to click the leave
control inside try/catch - the click is always attempted and a failure
is swallowed - and then runs endLife. -/
def leaveMeeting (s : MeetResources) : MeetResources × List Action :=
  let r := endLife s
  (r.1, Action.clickLeave :: r.2)

/-- Exit path of meetingActions (meet bot.ts lines 917-927) once the
polling loop has ended: leaveMeeting is invoked unconditionally; the
kicked flag recorded at line 895 is never consulted here or inside
leaveMeeting, and since leaveMeeting swallows the click failure the
endLife fallback of line 925 is unreachable. -/
def meetingActionsExit (_kicked : Bool) (s : MeetResources) :
    MeetResources × List Action :=
  leaveMeeting s

/-- Evaluation for C1 at the failing input: even when the loop ended
because checkKicked resolved true (kicked flag set), the exit path still
clicks the leave control before cleanup; cleanup does run. -/
theorem kicked_exit_still_clicks_leave :
    (meetingActionsExit true ⟨some (.exits (some 0)), some .isOpen⟩).2 =
      [Action.clickLeave, Action.sigintEncoder, Action.closeBrowser] := by
  decide

/-- Automatic-leave policy fields read by the loop (meet bot.ts lines
880, 904): everyoneLeftTimeout falls back to 30000 when absent. -/
structure AutoLeave where
  everyoneLeftTimeout : Option Int
  inactivityTimeout : Int
deriving Repr, DecidableEq

/-- Values observed by one iteration of the termination loop: roster
size, the timeAloneStarted field (none for Infinity), the lastActivity
field (none when no speech was ever registered), the verdict of
checkKicked for this tick, and the current instant. -/
structure LoopObs where
  participantsCount : Nat
  timeAloneStarted : Option Int
  lastActivity : Option Int
  kickedDetected : Bool
  now : Int
deriving Repr, DecidableEq

/-- Reason for which one loop iteration ends the meeting. -/
inductive ExitReason where
  | aloneTimeout
  | kicked
  | inactivity
deriving Repr, DecidableEq

/-- Alone-timeout condition (meet bot.ts lines 878-888): the roster has
exactly one member and now minus timeAloneStarted exceeds the timeout;
with timeAloneStarted at Infinity the difference is minus Infinity and
the comparison is false. -/
def aloneCond (cfg : AutoLeave) (o : LoopObs) : Bool :=
  decide (o.participantsCount = 1) &&
    match o.timeAloneStarted with
    | some t => decide (o.now - t > cfg.everyoneLeftTimeout.getD 30000)
    | none => false

/-- Inactivity condition (meet bot.ts lines 901-908): more than one
roster member, a truthy lastActivity, and now minus lastActivity exceeds
the inactivity timeout. -/
def inactivityCond (cfg : AutoLeave) (o : LoopObs) : Bool :=
  decide (o.participantsCount > 1) &&
    match o.lastActivity with
    | some la => decide (o.now - la > cfg.inactivityTimeout)
    | none => false

/-- One iteration of the termination polling loop (meet bot.ts lines
875-915): the checks run in source order - alone timeout first, then
checkKicked, then inactivity - and the first true one ends the loop. -/
def loopTick (cfg : AutoLeave) (o : LoopObs) : Option ExitReason :=
  if aloneCond cfg o then some .aloneTimeout
  else if o.kickedDetected then some .kicked
  else if inactivityCond cfg o then some .inactivity
  else none

/-- Counterexample to C5: in a tick where the bot has been alone past
everyoneLeftTimeout and checkKicked is also true, the loop resolves the
alone timeout, not Kicked, because the alone check runs first. -/
theorem kicked_tiebreak_claim_false :
    loopTick ⟨some 2000, 300000⟩ ⟨1, some 0, none, true, 10000⟩ =
      some .aloneTimeout ∧
    loopTick ⟨some 2000, 300000⟩ ⟨1, some 0, none, true, 10000⟩ ≠
      some .kicked := by
  decide

/-- C5 as amended: in a single polling tick Kicked takes precedence over
the inactivity timeout, which is checked after it, but the alone timeout
is checked before Kicked and wins whenever its condition holds. -/
theorem kicked_tiebreak_rule (cfg : AutoLeave) (o : LoopObs) :
    (aloneCond cfg o = true → loopTick cfg o = some .aloneTimeout) ∧
    (aloneCond cfg o = false → o.kickedDetected = true →
      loopTick cfg o = some .kicked) := by
  constructor
  · intro h
    simp [loopTick, h]
  · intro h hk
    simp [loopTick, h, hk]

/-- Witness for the amended C5: a tick where the bot was alone too long
and was also kicked resolves the alone timeout, and a tick with several
participants, stale activity and a kick detection resolves Kicked even
though the inactivity condition also holds. -/
theorem kicked_tiebreak_rule_witness :
    loopTick ⟨some 2000, 300000⟩ ⟨1, some 0, none, true, 10000⟩ =
      some .aloneTimeout ∧
    loopTick ⟨some 2000, 300⟩ ⟨3, some 0, some 0, true, 10000⟩ =
      some .kicked := by
  constructor
  · exact (kicked_tiebreak_rule ⟨some 2000, 300000⟩
      ⟨1, some 0, none, true, 10000⟩).1 (by decide)
  · exact (kicked_tiebreak_rule ⟨some 2000, 300⟩
      ⟨3, some 0, some 0, true, 10000⟩).2 (by decide) rfl

/-- Outcome of a join procedure: success, a generic driver timeout, or
the distinct WaitingRoomTimeoutError from the shared types. -/
inductive JoinOutcome where
  | ok
  | timeoutError
  | waitingRoomTimeout
deriving Repr, DecidableEq

/-- Environment of the meet join procedure, one flag per fallible UI
step: whether the name input appears within 15000 ms (meet bot.ts line
331), whether the Join-now or Ask-to-join button race succeeds and the
click lands (lines 357-362), and whether the joined signal - the leave
control - appears within waitingRoomTimeout (lines 368-372). -/
structure MeetJoinEnv where
  nameFieldAppears : Bool
  entryButtonAppears : Bool
  joinedSignalAppears : Bool
deriving Repr, DecidableEq

/-- joinMeeting of the meet bot (meet bot.ts lines 279-384) reduced to
its fallible UI steps.  The mute and camera clicks (lines 340-354) are
inside try/catch and swallowed.  A failure of the name-field wait or of
the entry-button race propagates as a generic timeout error; only the
final wait for the joined signal is caught and rethrown as the distinct
WaitingRoomTimeoutError (lines 369-376). -/
def joinMeeting (e : MeetJoinEnv) : JoinOutcome :=
  if !e.nameFieldAppears then .timeoutError
  else if !e.entryButtonAppears then .timeoutError
  else if !e.joinedSignalAppears then .waitingRoomTimeout
  else .ok

/-- Environment of the teams join procedure: whether the display-name
input appears within 15000 ms (teams bot.ts line 432; the fill retries
never throw), whether the prejoin join-button click lands (line 508),
and whether the hangup button appears within waitingRoomTimeout (lines
166-174). -/
structure TeamsJoinEnv where
  displayNameFieldAppears : Bool
  joinButtonClicks : Bool
  joinedSignalAppears : Bool
deriving Repr, DecidableEq

/-- joinMeeting of the teams bot (teams bot.ts lines 132-178) reduced to
its fallible UI steps: only the final wait for the joined signal is
caught and rethrown as WaitingRoomTimeoutError. -/
def teamsJoinMeeting (e : TeamsJoinEnv) : JoinOutcome :=
  if !e.displayNameFieldAppears then .timeoutError
  else if !e.joinButtonClicks then .timeoutError
  else if !e.joinedSignalAppears then .waitingRoomTimeout
  else .ok

/-- C10: on both platform variants the join procedure fails with the
distinct WaitingRoomTimeoutError exactly when every earlier UI step
succeeded and the joined signal did not appear within
waitingRoomTimeout; every other failure surfaces as a generic error. -/
theorem waitingRoomTimeout_exactly_on_missing_join_signal
    (e : MeetJoinEnv) (t : TeamsJoinEnv) :
    (joinMeeting e = .waitingRoomTimeout ↔
      e.nameFieldAppears = true ∧ e.entryButtonAppears = true ∧
        e.joinedSignalAppears = false) ∧
    (teamsJoinMeeting t = .waitingRoomTimeout ↔
      t.displayNameFieldAppears = true ∧ t.joinButtonClicks = true ∧
        t.joinedSignalAppears = false) := by
  obtain ⟨a, b, c⟩ := e
  obtain ⟨x, y, z⟩ := t
  cases a <;> cases b <;> cases c <;> cases x <;> cases y <;> cases z <;>
    decide

/-- Witness for C10: with the name entered and the entry button clicked
but no joined signal within the bound, both variants raise the distinct
waiting-room error. -/
theorem waitingRoomTimeout_witness :
    joinMeeting ⟨true, true, false⟩ = .waitingRoomTimeout ∧
    teamsJoinMeeting ⟨true, true, false⟩ = .waitingRoomTimeout :=
  ⟨(waitingRoomTimeout_exactly_on_missing_join_signal ⟨true, true, false⟩
      ⟨true, true, false⟩).1.mpr (by decide),
   (waitingRoomTimeout_exactly_on_missing_join_signal ⟨true, true, false⟩
      ⟨true, true, false⟩).2.mpr (by decide)⟩

end Meetingbot
